import Mathlib

/-!
Verification of the tdm-power-load-forecaster repository.

This file is a shallow embedding, in Lean 4, of the parts of the repository
that its specification makes claims about:

* `src/continuous_scheduler.py` : the periodic task engine (`TaskWrapper`
  and the standard-library `sched.scheduler` semantics it relies on);
* `src/forecasting.py` : timestamp retrieval, the weather fetch window,
  the weather download and daily aggregation, the load reconciliation
  (`preprocessing`), and the forecast clamping (`forecasting`);
* `src/power_load_forecaster.py` : the `forecasting_task` composition.

Modelling conventions:

* Timestamps in the pipeline are epoch seconds (`Nat`).  Every timestamp
  string exchanged with the store is second precision (the code truncates
  to 19 characters; this is itself verified separately on a structured
  timestamp type), so a `Nat` of seconds is a faithful carrier for the
  ordering and arithmetic the code performs.
* Measured and computed values are exact rationals.  They are carried by a
  normalized fraction type `Q` whose operations (including the gcd used
  for normalization) are structurally recursive, so that concrete runs of
  the pipeline evaluate inside the kernel; `Q` plays the role `float`
  arithmetic plays in the code at the granularity of the claims under
  test, where every computation is exact.
* InfluxDB series are time-sorted association lists `List (Nat × α)`;
  a write upserts by timestamp (most-recent-write-wins), which is the
  store semantics the code relies on.
* Python exceptions are an explicit error type `PyExc` carried through
  `Except`; `sys.exit(0)` raises `SystemExit`.
-/

/-- Python exceptions that the modelled code can raise. -/
inductive PyExc where
  | systemExit
  | keyError
  | attributeError
  | valueError
deriving DecidableEq, Repr

instance {ε α : Type} [DecidableEq ε] [DecidableEq α] :
    DecidableEq (Except ε α) := fun a b =>
  match a, b with
  | .error e, .error f =>
    if h : e = f then isTrue (congrArg Except.error h)
    else isFalse (fun hh => h (by injection hh))
  | .ok x, .ok y =>
    if h : x = y then isTrue (congrArg Except.ok h)
    else isFalse (fun hh => h (by injection hh))
  | .error _, .ok _ => isFalse (fun hh => Except.noConfusion hh)
  | .ok _, .error _ => isFalse (fun hh => Except.noConfusion hh)

/-- Structurally recursive gcd (fuel on the first argument) so that the
kernel can evaluate it on literals. -/
def gcdFuel : Nat → Nat → Nat → Nat
  | 0, _, b => b
  | _ + 1, 0, b => b
  | f + 1, a + 1, b => gcdFuel f (b % (a + 1)) (a + 1)

/-- Greatest common divisor with enough fuel for the Euclidean descent. -/
def natGcd (a b : Nat) : Nat := gcdFuel (a + 1) a b

/-- Exact rational values, kept in lowest terms with a positive
denominator by the smart constructor `Q.mk'`.  All field operations are
structurally recursive so concrete pipeline runs reduce in the kernel. -/
structure Q where
  num : Int
  den : Nat
deriving DecidableEq, Repr

/-- Normalizing constructor: divide out the gcd.  A zero denominator never
arises in the modelled queries (every divisor is a positive duration or a
positive row count); it is mapped to `0` as an inert junk value. -/
def Q.mk' (n : Int) (d : Nat) : Q :=
  if d = 0 then ⟨0, 1⟩
  else
    let g := natGcd n.natAbs d
    ⟨n / (g : Int), d / g⟩

def Q.add (a b : Q) : Q :=
  Q.mk' (a.num * (b.den : Int) + b.num * (a.den : Int)) (a.den * b.den)

def Q.sub (a b : Q) : Q :=
  Q.mk' (a.num * (b.den : Int) - b.num * (a.den : Int)) (a.den * b.den)

def Q.mul (a b : Q) : Q := Q.mk' (a.num * b.num) (a.den * b.den)

def Q.div (a b : Q) : Q :=
  let n := a.num * (b.den : Int)
  let d := (a.den : Int) * b.num
  if d < 0 then Q.mk' (-n) (-d).toNat else Q.mk' n d.toNat

/-- Embedding of an integer count or duration. -/
def Q.ofNat (n : Nat) : Q := ⟨(n : Int), 1⟩

def Q.le (a b : Q) : Prop := a.num * (b.den : Int) ≤ b.num * (a.den : Int)

def Q.lt (a b : Q) : Prop := a.num * (b.den : Int) < b.num * (a.den : Int)

instance : Add Q := ⟨Q.add⟩

instance : Sub Q := ⟨Q.sub⟩

instance : Mul Q := ⟨Q.mul⟩

instance : Div Q := ⟨Q.div⟩

instance : LE Q := ⟨Q.le⟩

instance : LT Q := ⟨Q.lt⟩

instance {n : Nat} : OfNat Q n := ⟨⟨(n : Int), 1⟩⟩

instance (a b : Q) : Decidable (a ≤ b) :=
  inferInstanceAs (Decidable (a.num * (b.den : Int) ≤ b.num * (a.den : Int)))

instance (a b : Q) : Decidable (a < b) :=
  inferInstanceAs (Decidable (a.num * (b.den : Int) < b.num * (a.den : Int)))

instance : Min Q := ⟨fun a b => if a ≤ b then a else b⟩

instance : Max Q := ⟨fun a b => if a ≤ b then b else a⟩

/-- Sum of a list of values. -/
def Q.lsum (l : List Q) : Q := l.foldr Q.add 0

/-- Lookup of the value stored at timestamp `t` (the first matching row,
as a dataframe lookup would return). -/
def getPoint {α : Type} (s : List (Nat × α)) (t : Nat) : Option α :=
  (s.find? (fun x => x.1 == t)).map Prod.snd

/-- Timestamp of the first row of a series (`index[0]`); defaults to 0 on
an empty series, which the code never queries. -/
def firstKey {α : Type} (s : List (Nat × α)) : Nat :=
  (s.head?.map Prod.fst).getD 0

/-- Timestamp of the last row of a series (`index[-1]`); defaults to 0 on
an empty series, which the code never queries. -/
def lastKey {α : Type} (s : List (Nat × α)) : Nat :=
  (s.getLast?.map Prod.fst).getD 0

/-- Sorted upsert of one point into a time-sorted series: a point with the
same timestamp is overwritten (InfluxDB most-recent-write-wins). -/
def upsertPt {α : Type} : List (Nat × α) → Nat × α → List (Nat × α)
  | [], x => [x]
  | y :: ys, x =>
    if x.1 < y.1 then x :: y :: ys
    else if x.1 = y.1 then x :: ys
    else y :: upsertPt ys x

/-- Model of `client.write_points`: upsert every row of `pts` into the
stored series. -/
def write_points {α : Type} (base : List (Nat × α)) (pts : List (Nat × α)) :
    List (Nat × α) :=
  pts.foldl upsertPt base

/-- Model of `y[~y.index.duplicated(keep='last')]`: of the rows sharing a
timestamp, keep the last occurrence, preserving order otherwise. -/
def dedupKeepLast {α : Type} : List (Nat × α) → List (Nat × α)
  | [] => []
  | x :: xs =>
    if (xs.map Prod.fst).contains x.1 then dedupKeepLast xs
    else x :: dedupKeepLast xs

/-- Model of `pd.concat([p, y])` followed by the keep-last deduplication
(forecasting.py lines 324-326). -/
def mergeProcessed {α : Type} (p y : List (Nat × α)) : List (Nat × α) :=
  dedupKeepLast (p ++ y)

/-- One Python `sched` event queue state for the single registered task:
the wall clock and the time the pending occurrence is scheduled for. -/
structure SchedState where
  clock : Nat
  nextTime : Nat
deriving DecidableEq, Repr

/-- One pass of `sched.scheduler.run` over `TaskWrapper.__call__`
(continuous_scheduler.py lines 38-41): sleep until the scheduled time,
run the task (taking `dur` seconds of wall time), then
`scheduler.enter(period, ...)`, which per the `sched` library schedules
for `timefunc() + period`, i.e. the finish time plus the period. -/
def taskWrapperStep (period dur : Nat) (s : SchedState) : SchedState :=
  let start := max s.clock s.nextTime
  let finish := start + dur
  { clock := finish, nextTime := finish + period }

/-- Engine state after `n` executions of the single task registered by
`MainScheduler.add_task(task, delay, period, ...)`; `dur k` is the wall
time the `k`-th execution takes. -/
def schedStateAfter (delay period : Nat) (dur : Nat → Nat) : Nat → SchedState
  | 0 => { clock := 0, nextTime := delay }
  | n + 1 => taskWrapperStep period (dur n) (schedStateAfter delay period dur n)

/-- Time the `n`-th execution (0-based) of the task is scheduled for. -/
def nthScheduledTime (delay period : Nat) (dur : Nat → Nat) (n : Nat) : Nat :=
  (schedStateAfter delay period dur n).nextTime

/-- Model of `TaskWrapper.__call__` as a result transformer: an exception
raised by the task propagates before `scheduler.enter` runs, so no next
occurrence is enqueued; on success the next occurrence is enqueued for the
finish time plus the period. -/
def taskWrapperCall {α : Type} (result : Except PyExc α) (queue : List Nat)
    (finish period : Nat) : Except PyExc (List Nat) :=
  match result with
  | .error e => .error e
  | .ok _ => .ok (queue ++ [finish + period])

lemma schedStateAfter_clock_le (delay period : Nat) (dur : Nat → Nat) (n : Nat) :
    (schedStateAfter delay period dur n).clock ≤
      (schedStateAfter delay period dur n).nextTime := by
  cases n with
  | zero => simp [schedStateAfter]
  | succ k => simp [schedStateAfter, taskWrapperStep]

lemma nthScheduledTime_succ (delay period : Nat) (dur : Nat → Nat) (n : Nat) :
    nthScheduledTime delay period dur (n + 1) =
      nthScheduledTime delay period dur n + dur n + period := by
  have h := schedStateAfter_clock_le delay period dur n
  simp only [nthScheduledTime, schedStateAfter, taskWrapperStep]
  omega

/-- C2 (amended): the engine re-enqueues the task for its finish time plus
the period, so with initial delay `d`, period `P` and execution durations
`dur`, the `n`-th execution is scheduled at `d + n*P` plus the total wall
time spent by the previous `n` executions - not at `d + n*P` independently
of task duration. -/
theorem scheduler_nth_time_accumulates_duration (delay period : Nat)
    (dur : Nat → Nat) (n : Nat) :
    nthScheduledTime delay period dur n =
      delay + n * period + (Finset.range n).sum dur := by
  induction n with
  | zero => simp [nthScheduledTime, schedStateAfter]
  | succ k ih =>
    rw [nthScheduledTime_succ, ih, Finset.sum_range_succ]
    ring

/-- C2 (counterexample): with initial delay 0, period 10 and a task that
takes 1 second, the second execution is scheduled at 11, not at
`0 + 1 * 10 = 10` as the claim states. -/
theorem scheduler_drifts_with_duration_cex :
    nthScheduledTime 0 10 (fun _ => 1) 1 = 11 ∧ 0 + 1 * 10 = 10 ∧
      (11 : Nat) ≠ 10 := by
  refine ⟨rfl, rfl, by decide⟩

/-- Start of the 5-minute bucket containing `t` (InfluxDB `GROUP BY time(5m)`
buckets are aligned to epoch multiples of 5 minutes). -/
def bucketFloor (t : Nat) : Nat := t - t % 300

/-- Start of the hour containing `t`. -/
def hourFloor (t : Nat) : Nat := t - t % 3600

/-- Start of the calendar day (UTC) containing `t`. -/
def dayFloor (t : Nat) : Nat := t - t % 86400

/-- Median of a list of values, as InfluxDB `MEDIAN` computes it: sort, take
the middle element, or the mean of the two middle elements for an even count;
`none` on an empty bucket (a null bucket under `FILL(null)`). -/
def medianQ (l : List Q) : Option Q :=
  match l with
  | [] => none
  | _ =>
    let s := l.insertionSort (· ≤ ·)
    if l.length % 2 = 1 then some (s.getD (l.length / 2) 0)
    else some ((s.getD (l.length / 2 - 1) 0 + s.getD (l.length / 2) 0) / 2)

/-- Mean of a list of values (pandas `mean` over the non-null rows). -/
def meanQ (l : List Q) : Q := Q.lsum l / Q.ofNat l.length

/-- The 5-minute bucket start times covering the half-open query range
`[startT, stop)` of `GROUP BY time(5m)`. -/
def bucketTimes (startT stop : Nat) : List Nat :=
  (List.range ((stop - bucketFloor startT + 299) / 300)).map
    (fun i => bucketFloor startT + 300 * i)

/-- For each 5-minute bucket of the range, the median of the `pulse` points
falling in that bucket and satisfying `WHERE time >= startT` (with `now` as
the implicit upper bound of the grouped query); empty buckets are `none`
(`FILL(null)`). -/
def bucketMedians (pulses : List (Nat × Q)) (startT stop : Nat) :
    List (Nat × Option Q) :=
  (bucketTimes startT stop).map (fun b =>
    (b, medianQ ((pulses.filter (fun x =>
          decide (startT ≤ x.1 ∧ x.1 < stop ∧ bucketFloor x.1 = b))).map
        Prod.snd)))

/-- InfluxDB `NON_NEGATIVE_DERIVATIVE(..., 1h)` over the bucketed medians:
between each non-null bucket and the previous non-null bucket, the rate of
change per hour, emitted at the later bucket's time; negative rates are
dropped, and the first non-null bucket emits nothing. -/
def derivRowsAux : List (Nat × Option Q) → Option (Nat × Q) → List (Nat × Q)
  | [], _ => []
  | (_, none) :: rest, prev => derivRowsAux rest prev
  | (t, some v) :: rest, none => derivRowsAux rest (some (t, v))
  | (t, some v) :: rest, some (tp, vp) =>
    let rate := (v - vp) * 3600 / (Q.ofNat t - Q.ofNat tp)
    (if rate < 0 then [] else [(t, rate)]) ++ derivRowsAux rest (some (t, v))

/-- The power query of forecasting.py lines 280-291:
`SELECT NON_NEGATIVE_DERIVATIVE(MEDIAN(pulse), 1h) .. WHERE time >= startT
GROUP BY time(5m) FILL(null)` evaluated at wall time `stop`. -/
def power_query (pulses : List (Nat × Q)) (startT stop : Nat) :
    List (Nat × Q) :=
  derivRowsAux (bucketMedians pulses startT stop) none

/-- Removal of negative power values and outliers (forecasting.py line 295):
`y = y[(y >= 0) & (y < 15000)]`. -/
def filterValid (y : List (Nat × Q)) : List (Nat × Q) :=
  y.filter (fun x => decide (0 ≤ x.2 ∧ x.2 < 15000))

/-- Hourly resample-and-mean with `dropna` (forecasting.py line 298): group
the rows by the hour containing them and take the mean of each nonempty
hour; hours with no rows do not appear. -/
def resampleHourlyMean (y : List (Nat × Q)) : List (Nat × Q) :=
  ((y.map (fun x => hourFloor x.1)).dedup).map (fun h =>
    (h, meanQ ((y.filter (fun x => decide (hourFloor x.1 = h))).map Prod.snd)))

/-- One stored weather row: the hourly temperature plus the broadcast daily
aggregates. -/
structure WRow where
  T2 : Option Q
  T2_daily_mean : Option Q
  T2_daily_min : Option Q
  T2_daily_max : Option Q
deriving DecidableEq, Repr

/-- One forecast output row: 1st quartile, median, 3rd quartile. -/
structure ForecastPoint where
  first_quartile : Q
  median : Q
  third_quartile : Q
deriving DecidableEq, Repr

/-- The persisted state of the four series. -/
structure Stores where
  pulses : List (Nat × Q)
  processed : List (Nat × Q)
  weather : List (Nat × WRow)
  forecast : List (Nat × ForecastPoint)
deriving DecidableEq, Repr

/-- The configuration values the modelled operations read. -/
structure Params where
  weather_start_timestamp : Nat
  horizon_length : Nat
  weather_forecast_interval : Nat
deriving DecidableEq, Repr

/-- The already-processed power rows the run re-reads (forecasting.py lines
253-260): `SELECT power FROM processed WHERE time >= first_timestamp`. -/
def queried_processed (st : Stores) : List (Nat × Q) :=
  st.processed.filter (fun x => decide (firstKey st.pulses ≤ x.1))

/-- The reprocessing checkpoint (forecasting.py lines 263-273): the first
pulse timestamp when the processed series is missing or empty, otherwise
the last processed timestamp minus one hour. -/
def last_processed_timestamp (st : Stores) : Nat :=
  if (queried_processed st).isEmpty then firstKey st.pulses
  else lastKey (queried_processed st) - 3600

/-- The raw rows returned by the power query of the current run. -/
def power_rows (st : Stores) (now : Nat) : List (Nat × Q) :=
  power_query st.pulses (last_processed_timestamp st) now

/-- The valid hourly load series derived by the current run
(forecasting.py lines 289-298). -/
def hourlyLoad (st : Stores) (now : Nat) : List (Nat × Q) :=
  resampleHourlyMean (filterValid (power_rows st now))

/-- The horizon index (forecasting.py lines 331-337): `horizon_length`
hourly timestamps starting at the top of the hour following `now`. -/
def horizonIndex (now h : Nat) : List Nat :=
  (List.range h).map (fun i => (hourFloor now + 3600) + 3600 * i)

/-- The data `preprocessing` hands to the forecaster: the merged target
series and the horizon index (the calendar features are derived from these
timestamps alone and carry no further state). -/
structure PreResult where
  y : List (Nat × Q)
  horizon : List Nat
deriving DecidableEq, Repr

/-- Model of `preprocessing` (forecasting.py lines 221-368).  Returns the
store state after the run's writes together with the result; `sys.exit(0)`
on an empty query result (KeyError path, lines 301-303) or on fewer than 2
valid hourly points (lines 305-308) is `Except.error .systemExit`, raised
before anything is written. -/
def preprocessing (params : Params) (st : Stores) (now : Nat)
    (_W : List (Nat × WRow)) : Stores × Except PyExc PreResult :=
  let p := queried_processed st
  let rows := power_rows st now
  if rows.isEmpty then (st, .error .systemExit)
  else
    let y := resampleHourlyMean (filterValid rows)
    if y.length < 2 then (st, .error .systemExit)
    else
      let st2 := { st with processed := write_points st.processed y }
      (st2, .ok ⟨mergeProcessed p y, horizonIndex now params.horizon_length⟩)

/-- An hourly block returned by the weather provider for one query instant
(rows of `(time, T2)`), already renamed/indexed as in forecasting.py
lines 94-95. -/
abbrev WBlock : Type := List (Nat × Q)

/-- Hourly timestamps from `a` to `b` inclusive, as `pd.date_range` /
`asfreq('H')` generate them. -/
def hourlyRange (a b : Nat) : List Nat :=
  (List.range ((b - a) / 3600 + 1)).map (fun i => a + 3600 * i)

/-- Model of `asfreq('H')` on the concatenation of the fetched blocks:
reindex to one row per hour from the first to the last index; hours with no
row become null. -/
def asfreqH (rows : List (Nat × Q)) : List (Nat × Option Q) :=
  match rows with
  | [] => []
  | _ => (hourlyRange (firstKey rows) (lastKey rows)).map
      (fun t => (t, getPoint rows t))

/-- Model of `download_weather_data` (forecasting.py lines 67-102): walk
backward from `endT` to `startT` in 6-hour steps; a successful response
contributes its first `n_hours` rows and resets `n_hours` to the forecast
interval; a failed block widens `n_hours` by one interval (or keeps the full
horizon while nothing has been fetched yet).  The fetched blocks are then
concatenated oldest-to-newest and resampled hourly; if no block was usable,
the `ValueError` from the empty concat is caught and an empty table is
returned. -/
def download_weather_data (resp : Nat → Option WBlock)
    (startT endT horizon interval : Nat) : List (Nat × Option Q) :=
  let steps := if endT < startT then 0 else (endT - startT) / 21600 + 1
  let final := (List.range steps).foldl
    (fun s i =>
      match resp (endT - 21600 * i) with
      | some b => (s.1 ++ [b.take s.2], interval)
      | none => (s.1, if s.1.isEmpty then horizon else s.2 + interval))
    (([] : List WBlock), horizon)
  if final.1.isEmpty then []
  else asfreqH final.1.reverse.flatten

/-- Model of the daily-aggregate step (forecasting.py lines 187-194): on an
empty table, `w_df.index.date` on the default `RangeIndex` raises
`AttributeError`; otherwise every hourly row is joined with the mean,
minimum and maximum temperature of its calendar day. -/
def aggregateDailyTemps (tbl : List (Nat × Option Q)) :
    Except PyExc (List (Nat × WRow)) :=
  if tbl.isEmpty then .error .attributeError
  else .ok (tbl.map (fun x =>
    let dayVals := (tbl.filter (fun r =>
        decide (dayFloor r.1 = dayFloor x.1))).filterMap Prod.snd
    (x.1, ⟨x.2,
           if dayVals.isEmpty then none else some (meanQ dayVals),
           dayVals.min?,
           dayVals.max?⟩)))

/-- The weather fetch window start (forecasting.py lines 120-167): when the
weather series is missing or empty the `KeyError` path takes the configured
earliest-available timestamp and the earliest pulse; otherwise the last
stored weather and pulse points; the winner of the `min` is then truncated
by subtracting its hour, minute and second parts. -/
def weatherFetchStart (pulses : List (Nat × Q)) (weather : List (Nat × WRow))
    (firstAvail : Nat) : Nat :=
  let firstPulse := firstKey pulses
  let lastPulse := lastKey pulses
  let fw := if weather.isEmpty then (firstAvail, none)
            else (firstKey weather, some (lastKey weather))
  let firstW := max fw.1 firstAvail
  let startT := match fw.2 with
    | none => min firstPulse firstW
    | some lw => min lastPulse lw
  startT - ((startT / 3600 % 24) * 3600 + (startT / 60 % 60) * 60 + startT % 60)

/-- The weather fetch window end (forecasting.py lines 169-172): `now`
floored to the most recent multiple of the forecast-issue interval within
its day. -/
def weatherFetchEnd (now interval : Nat) : Nat :=
  dayFloor now + (interval * (now % 86400 / 3600 / interval)) * 3600

/-- The downloaded-and-aggregated weather table of one run: fetch window,
download, then daily aggregation (which raises on an empty table). -/
def weatherAggregated (resp : Nat → Option WBlock) (params : Params)
    (st : Stores) (now : Nat) : Except PyExc (List (Nat × WRow)) :=
  aggregateDailyTemps
    (download_weather_data resp
      (weatherFetchStart st.pulses st.weather params.weather_start_timestamp)
      (weatherFetchEnd now params.weather_forecast_interval)
      params.horizon_length params.weather_forecast_interval)

/-- Model of `weather_preprocessing` (forecasting.py lines 106-217): compute
the fetch window, download, aggregate daily temperatures (which raises on an
empty table), persist the aggregate rows, and re-read the persisted weather
series for downstream use. -/
def weather_preprocessing (resp : Nat → Option WBlock) (params : Params)
    (st : Stores) (now : Nat) : Stores × Except PyExc (List (Nat × WRow)) :=
  match weatherAggregated resp params st now with
  | .error e => (st, .error e)
  | .ok wagg =>
    let st1 := { st with weather := write_points st.weather wagg }
    (st1, .ok st1.weather)

/-- Clamp of a predicted value (forecasting.py line 409):
`df_pred[df_pred < 0] = 0.0`. -/
def clampNeg (x : Q) : Q := if x < 0 then 0 else x

/-- Model of `forecasting` (forecasting.py lines 372-411): the three fitted
regressors' raw predictions over the horizon are taken as inputs (the
gradient-boosting fit itself is numeric and carries no claim); the output
table keeps all three quantile columns with every negative prediction
replaced by zero. -/
def forecasting (pred1 pred2 pred3 : List Q) : List ForecastPoint :=
  (pred1.zip (pred2.zip pred3)).map (fun x =>
    ⟨clampNeg x.1, clampNeg x.2.1, clampNeg x.2.2⟩)

/-- Model of `forecasting_task` (power_load_forecaster.py lines 211-245):
weather reconciliation, then load preprocessing, then forecasting, then the
forecast write; an exception from either reconciliation stage propagates
without reaching the later writes. -/
def forecasting_task (resp : Nat → Option WBlock) (params : Params)
    (preds : List Q × List Q × List Q) (st : Stores) (now : Nat) :
    Stores × Except PyExc Unit :=
  let w := weather_preprocessing resp params st now
  match w.2 with
  | .error e => (w.1, .error e)
  | .ok W =>
    let pr := preprocessing params w.1 now W
    match pr.2 with
    | .error e => (pr.1, .error e)
    | .ok r =>
      let df := forecasting preds.1 preds.2.1 preds.2.2
      ({ pr.1 with forecast := write_points pr.1.forecast (r.horizon.zip df) },
       .ok ())

/-- A store timestamp as the Python client materialises it: a timezone-aware
calendar instant with nanosecond precision. -/
structure PTimestamp where
  year : Nat
  month : Nat
  day : Nat
  hour : Nat
  minute : Nat
  second : Nat
  nanosecond : Nat
  isUTC : Bool
deriving DecidableEq, Repr

instance : Inhabited PTimestamp := ⟨⟨1970, 1, 1, 0, 0, 0, 0, true⟩⟩

/-- The character for the last decimal digit of `n`. -/
def digitChar (n : Nat) : Char := Char.ofNat (48 + n % 10)

/-- Two-character zero-padded decimal rendering (of `n % 100`). -/
def pad2 (n : Nat) : List Char := [digitChar (n / 10), digitChar n]

/-- Four-character zero-padded decimal rendering (of `n % 10000`). -/
def pad4 (n : Nat) : List Char :=
  [digitChar (n / 1000), digitChar (n / 100), digitChar (n / 10), digitChar n]

/-- Six-character zero-padded decimal rendering (of `n % 1000000`). -/
def pad6 (n : Nat) : List Char := pad2 (n / 10000) ++ pad2 (n / 100) ++ pad2 n

/-- Nine-character zero-padded decimal rendering (of `n % 1000000000`). -/
def pad9 (n : Nat) : List Char :=
  digitChar (n / 100000000) :: pad4 (n / 10000) ++ pad4 n

/-- The 19-character second-precision prefix
`YYYY-MM-DD HH:MM:SS` of a rendered timestamp. -/
def renderSecondsChars (t : PTimestamp) : List Char :=
  pad4 t.year ++ '-' :: pad2 t.month ++ '-' :: pad2 t.day ++
    ' ' :: pad2 t.hour ++ ':' :: pad2 t.minute ++ ':' :: pad2 t.second

/-- The fractional-seconds suffix of `str(timestamp)`: absent when the
nanosecond part is zero, microsecond precision when it is a whole number of
microseconds, nanosecond precision otherwise. -/
def fracChars (ns : Nat) : List Char :=
  if ns = 0 then []
  else if ns % 1000 = 0 then '.' :: pad6 (ns / 1000)
  else '.' :: pad9 ns

/-- The timezone suffix of `str(timestamp)` for a UTC-aware timestamp. -/
def tzChars (b : Bool) : List Char :=
  if b then ['+', '0', '0', ':', '0', '0'] else []

/-- Model of Python `str(q)` on a store timestamp `q`. -/
def strOfTimestamp (t : PTimestamp) : List Char :=
  renderSecondsChars t ++ fracChars t.nanosecond ++ tzChars t.isUTC

/-- Model of `get_first_timestamp` (forecasting.py lines 30-44): the
timestamp of the first point, returned raw when `dt` is true and as
`str(q)[:19]` otherwise. -/
def get_first_timestamp (store : List (PTimestamp × Q)) (dt : Bool) :
    PTimestamp ⊕ List Char :=
  let q := (store.head?.map Prod.fst).getD default
  if dt then Sum.inl q else Sum.inr ((strOfTimestamp q).take 19)

/-- Model of `get_last_timestamp` (forecasting.py lines 48-63): the
timestamp of the most recent point, returned raw when `dt` is true and as
`str(q)[:19]` otherwise. -/
def get_last_timestamp (store : List (PTimestamp × Q)) (dt : Bool) :
    PTimestamp ⊕ List Char :=
  let q := (store.getLast?.map Prod.fst).getD default
  if dt then Sum.inl q else Sum.inr ((strOfTimestamp q).take 19)

/-- Model of the load checkpoint string of forecasting.py line 273,
`str(p.index[-1] - timedelta(hours=1))[:19]`, as a function of the already
shifted timestamp `p.index[-1] - 1h`. -/
def checkpointString (t : PTimestamp) : List Char :=
  (strOfTimestamp t).take 19

lemma preprocessing_eq (params : Params) (st : Stores) (now : Nat)
    (W : List (Nat × WRow)) :
    preprocessing params st now W =
      if (power_rows st now).isEmpty then (st, .error .systemExit)
      else if (hourlyLoad st now).length < 2 then (st, .error .systemExit)
      else ({ st with processed := write_points st.processed (hourlyLoad st now) },
            .ok ⟨mergeProcessed (queried_processed st) (hourlyLoad st now),
                 horizonIndex now params.horizon_length⟩) := rfl

lemma preprocessing_insufficient (params : Params) (st : Stores) (now : Nat)
    (W : List (Nat × WRow)) (h : (hourlyLoad st now).length < 2) :
    preprocessing params st now W = (st, .error .systemExit) := by
  rw [preprocessing_eq]
  split
  · rfl
  · simp [h]

lemma weather_preprocessing_preserves (resp : Nat → Option WBlock)
    (params : Params) (st : Stores) (now : Nat) :
    (weather_preprocessing resp params st now).1.pulses = st.pulses ∧
    (weather_preprocessing resp params st now).1.processed = st.processed ∧
    (weather_preprocessing resp params st now).1.forecast = st.forecast := by
  cases h : weatherAggregated resp params st now <;>
    simp [weather_preprocessing, h]

/-- A raw pulse store yielding exactly one valid hourly point. -/
def pulsesA : List (Nat × Q) := [(0, 0), (300, 10)]

/-- A cold-start store over `pulsesA`. -/
def storesA : Stores := ⟨pulsesA, [], [], []⟩

/-- Concrete configuration: horizon 2 hours, weather issued every 6 hours,
weather available from epoch 0. -/
def paramsA : Params := ⟨0, 2, 6⟩

/-- A weather provider that answers every query with one valid hourly row. -/
def respA : Nat → Option WBlock := fun _ => some [(0, 20)]

/-- The weather aggregate row the run over `respA` persists and re-reads. -/
def waggA : List (Nat × WRow) := [(0, ⟨some 20, some 20, some 20, some 20⟩)]

/-- C1 (amended): when the hourly load derivation yields fewer than 2 valid
hourly points, `preprocessing` reports and raises `SystemExit` (`exit(0)`),
which propagates past its caller; `TaskWrapper.__call__` therefore never
reaches its re-enqueue, so the engine stops and no next scheduled occurrence
runs in-process. -/
theorem insufficient_data_raises_past_caller (params : Params) (st : Stores)
    (W : List (Nat × WRow)) (now finish period : Nat) (queue : List Nat)
    (h : (hourlyLoad st now).length < 2) :
    (preprocessing params st now W).2 = Except.error PyExc.systemExit ∧
    taskWrapperCall (preprocessing params st now W).2 queue finish period =
      Except.error PyExc.systemExit := by
  rw [preprocessing_insufficient params st now W h]
  exact ⟨rfl, rfl⟩

/-- C1 (witness): the concrete cold-start store with a single valid hourly
point triggers the `SystemExit` propagation. -/
theorem insufficient_data_raises_past_caller_witness :
    (preprocessing paramsA storesA 3600 []).2 = Except.error PyExc.systemExit ∧
    taskWrapperCall (preprocessing paramsA storesA 3600 []).2 [] 0 21600 =
      Except.error PyExc.systemExit :=
  insufficient_data_raises_past_caller paramsA storesA [] 3600 0 21600 []
    (by decide)

/-- C1 (counterexample): on a store with one valid hourly point, the modelled
`preprocessing` raises `SystemExit` past its caller, and the task-wrapper
call propagates the exception instead of re-enqueueing the next occurrence:
the claim that the run stops without raising past the caller and that the
next scheduled occurrence still runs is false on this input. -/
theorem insufficient_data_cex :
    (preprocessing paramsA storesA 3600 []).2 = Except.error PyExc.systemExit ∧
    taskWrapperCall (preprocessing paramsA storesA 3600 []).2 [] 0 21600 =
      Except.error PyExc.systemExit ∧
    (Except.error PyExc.systemExit : Except PyExc (List Nat)) ≠
      Except.ok ([] ++ [0 + 21600]) := by
  refine ⟨by decide, by decide, by simp⟩

/-- C5: when the run reaches load reconciliation (the weather stage
succeeded) and the insufficient-data abort fires, nothing is written to the
processed series and nothing to the forecast series: both keep their prior
stored content, and the task ends with the propagated `SystemExit`. -/
theorem insufficient_data_preserves_series (resp : Nat → Option WBlock)
    (params : Params) (preds : List Q × List Q × List Q) (st : Stores)
    (now : Nat) (W : List (Nat × WRow))
    (hW : (weather_preprocessing resp params st now).2 = Except.ok W)
    (h2 : (hourlyLoad ((weather_preprocessing resp params st now).1) now).length < 2) :
    (forecasting_task resp params preds st now).1.processed = st.processed ∧
    (forecasting_task resp params preds st now).1.forecast = st.forecast ∧
    (forecasting_task resp params preds st now).2 = Except.error PyExc.systemExit := by
  have hpres := weather_preprocessing_preserves resp params st now
  have hpre := preprocessing_insufficient params
      ((weather_preprocessing resp params st now).1) now W h2
  simp only [forecasting_task, hW, hpre]
  exact ⟨hpres.2.1, hpres.2.2, trivial⟩

/-- C5 (witness): on the concrete cold-start store with one valid hourly
point and a succeeding weather provider, the aborted run leaves the
processed and forecast series unchanged. -/
theorem insufficient_data_preserves_series_witness :
    (forecasting_task respA paramsA ([], [], []) storesA 3600).1.processed =
      storesA.processed ∧
    (forecasting_task respA paramsA ([], [], []) storesA 3600).1.forecast =
      storesA.forecast ∧
    (forecasting_task respA paramsA ([], [], []) storesA 3600).2 =
      Except.error PyExc.systemExit :=
  insufficient_data_preserves_series respA paramsA ([], [], []) storesA 3600
    waggA (by decide) (by decide)

lemma getPoint_cons {α : Type} (x : Nat × α) (l : List (Nat × α)) (t : Nat) :
    getPoint (x :: l) t = if x.1 = t then some x.2 else getPoint l t := by
  by_cases h : x.1 = t <;> simp [getPoint, List.find?_cons, h]

lemma getPoint_upsertPt_ne {α : Type} (s : List (Nat × α)) (x : Nat × α)
    (t : Nat) (h : t ≠ x.1) :
    getPoint (upsertPt s x) t = getPoint s t := by
  induction s with
  | nil => rw [upsertPt, getPoint_cons, if_neg (fun hh => h hh.symm)]
  | cons y ys ih =>
    rw [upsertPt]
    split
    · rw [getPoint_cons, if_neg (fun hh => h hh.symm)]
    · split
      next heq =>
        rw [getPoint_cons, getPoint_cons, if_neg (fun hh => h hh.symm),
          if_neg (fun hh => h (heq ▸ hh.symm))]
      next =>
        rw [getPoint_cons, getPoint_cons, ih]

lemma getPoint_write_points_lt {α : Type} (base pts : List (Nat × α)) (t : Nat)
    (h : ∀ k ∈ pts.map Prod.fst, t < k) :
    getPoint (write_points base pts) t = getPoint base t := by
  induction pts generalizing base with
  | nil => rfl
  | cons a l ih =>
    show getPoint (write_points (upsertPt base a) l) t = _
    rw [ih (upsertPt base a) (fun k hk => h k (by simp [hk]))]
    exact getPoint_upsertPt_ne base a t (Nat.ne_of_lt (h a.1 (by simp)))

lemma derivRowsAux_mem_keys (l : List (Nat × Option Q)) (prev : Option (Nat × Q)) :
    ∀ x ∈ derivRowsAux l prev, x.1 ∈ l.map Prod.fst := by
  induction l generalizing prev with
  | nil => simp [derivRowsAux]
  | cons a rest ih =>
    obtain ⟨t, v⟩ := a
    cases v with
    | none =>
      intro x hx
      simpa using Or.inr (ih prev x (by simpa [derivRowsAux] using hx))
    | some w =>
      cases prev with
      | none =>
        intro x hx
        simpa using Or.inr (ih (some (t, w)) x (by simpa [derivRowsAux] using hx))
      | some pv =>
        obtain ⟨tp, vp⟩ := pv
        intro x hx
        rw [derivRowsAux] at hx
        rcases List.mem_append.mp hx with h1 | h2
        · have hx2 : x = (t, (w - vp) * 3600 / (Q.ofNat t - Q.ofNat tp)) := by
            split at h1
            · simp at h1
            · simpa using h1
          subst hx2
          simp
        · simpa using Or.inr (ih (some (t, w)) x h2)

lemma power_query_key_ge (pulses : List (Nat × Q)) (s n : Nat) :
    ∀ x ∈ power_query pulses s n, bucketFloor s ≤ x.1 := by
  intro x hx
  have h1 := derivRowsAux_mem_keys (bucketMedians pulses s n) none x hx
  simp only [bucketMedians, bucketTimes, List.map_map, List.mem_map,
    List.mem_range, Function.comp] at h1
  obtain ⟨i, _, he⟩ := h1
  omega

lemma hourFloor_mono {a b : Nat} (h : a ≤ b) : hourFloor a ≤ hourFloor b := by
  simp only [hourFloor]
  omega

lemma resample_keys_ge (y : List (Nat × Q)) (c : Nat) (h : ∀ x ∈ y, c ≤ x.1) :
    ∀ k ∈ (resampleHourlyMean y).map Prod.fst, hourFloor c ≤ k := by
  intro k hk
  simp only [resampleHourlyMean, List.map_map, List.mem_map, Function.comp] at hk
  obtain ⟨h0, hh0, rfl⟩ := hk
  have h1 : h0 ∈ y.map (fun x => hourFloor x.1) := List.mem_dedup.mp hh0
  obtain ⟨x, hx, rfl⟩ := List.mem_map.mp h1
  exact hourFloor_mono (h x hx)

lemma hourlyLoad_keys_ge (st : Stores) (now : Nat) :
    ∀ k ∈ (hourlyLoad st now).map Prod.fst,
      hourFloor (last_processed_timestamp st) ≤ k := by
  intro k hk
  have hb : ∀ x ∈ filterValid (power_rows st now),
      bucketFloor (last_processed_timestamp st) ≤ x.1 := by
    intro x hx
    exact power_query_key_ge st.pulses _ now x (List.mem_of_mem_filter hx)
  have h2 := resample_keys_ge _ _ hb k hk
  have h3 : hourFloor (bucketFloor (last_processed_timestamp st)) =
      hourFloor (last_processed_timestamp st) := by
    simp only [hourFloor, bucketFloor]
    omega
  omega

/-- C6 (amended): on a rerun the power query restarts one hour before the
last processed point, and every already-stored value at a timestamp earlier
than that restart point is left unchanged by the run (the final stored hours
from the restart point onward are the ones eligible for recomputation). -/
theorem rerun_preserves_settled_history (params : Params) (st : Stores)
    (W : List (Nat × WRow)) (now T : Nat) (v : Q)
    (hp : (queried_processed st).isEmpty = false)
    (hal : lastKey (queried_processed st) % 3600 = 0)
    (hT : getPoint st.processed T = some v)
    (hlt : T + 3600 < lastKey (queried_processed st)) :
    getPoint ((preprocessing params st now W).1).processed T = some v ∧
    last_processed_timestamp st = lastKey (queried_processed st) - 3600 := by
  have hckpt : last_processed_timestamp st =
      lastKey (queried_processed st) - 3600 := by
    simp [last_processed_timestamp, hp]
  refine ⟨?_, hckpt⟩
  rw [preprocessing_eq]
  split
  · exact hT
  · split
    · exact hT
    · show getPoint (write_points st.processed (hourlyLoad st now)) T = some v
      rw [getPoint_write_points_lt st.processed _ T ?_]
      · exact hT
      · intro k hk
        have hge := hourlyLoad_keys_ge st now k hk
        have hfl : hourFloor (last_processed_timestamp st) =
            lastKey (queried_processed st) - 3600 := by
          rw [hckpt]
          simp only [hourFloor]
          omega
        omega

/-- A processed store as a previous run would have written it over
`pulsesA` (three hourly points, hour aligned). -/
def processedC : List (Nat × Q) := [(0, 120), (3600, 132), (7200, 120)]

/-- A store whose processed series already holds three settled hours. -/
def storesC : Stores := ⟨pulsesA, processedC, [], []⟩

/-- C6 (witness): on the concrete store with last processed point 7200, a
rerun leaves the settled value at timestamp 0 unchanged and restarts the
query at 3600. -/
theorem rerun_preserves_settled_history_witness :
    getPoint ((preprocessing paramsA storesC 10800 []).1).processed 0 =
      some 120 ∧
    last_processed_timestamp storesC = lastKey (queried_processed storesC) - 3600 :=
  rerun_preserves_settled_history paramsA storesC [] 10800 0 120 (by decide)
    (by decide) (by decide) (by decide)

/-- A pulse counter sampled every 5 minutes for two hours, increasing by 10
per sample except for a jump of 22 at the top of the second hour. -/
def pulsesB : List (Nat × Q) :=
  (List.range 25).map (fun i =>
    (300 * i, if i ≤ 11 then Q.ofNat (10 * i) else Q.ofNat (132 + 10 * (i - 12))))

/-- A cold-start store over `pulsesB`. -/
def storesB : Stores := ⟨pulsesB, [], [], []⟩

/-- C6 (counterexample): after a first run at wall time 7500 stores the
value 132 at timestamp 3600, a rerun at wall time 14400 recomputes the
window from one hour before the last processed point and stores 120 at that
same timestamp - although 3600 is earlier than `now` minus one hour
(14400 - 3600 = 10800).  The first derivative bucket of the restarted query
has no predecessor, so the recomputed hourly mean differs from the stored
one: a rerun can alter stored values earlier than "now minus one hour". -/
theorem rerun_alters_recent_history_cex :
    getPoint ((preprocessing paramsA storesB 7500 []).1).processed 3600 =
      some 132 ∧
    3600 < 14400 - 3600 ∧
    getPoint ((preprocessing paramsA
        ((preprocessing paramsA storesB 7500 []).1) 14400 []).1).processed 3600 =
      some 120 ∧
    some (132 : Q) ≠ some (120 : Q) := by
  refine ⟨by decide, by decide, by decide, by decide⟩

lemma keys_dedupKeepLast_subset {α : Type} (l : List (Nat × α)) :
    ∀ k ∈ (dedupKeepLast l).map Prod.fst, k ∈ l.map Prod.fst := by
  induction l with
  | nil => simp [dedupKeepLast]
  | cons x xs ih =>
    intro k hk
    rw [dedupKeepLast] at hk
    split at hk
    · simpa using Or.inr (ih k hk)
    · simp only [List.map_cons, List.mem_cons] at hk
      rcases hk with h | h
      · simp [h]
      · simpa using Or.inr (ih k h)

lemma keys_dedupKeepLast_nodup {α : Type} (l : List (Nat × α)) :
    ((dedupKeepLast l).map Prod.fst).Nodup := by
  induction l with
  | nil => simp [dedupKeepLast]
  | cons x xs ih =>
    rw [dedupKeepLast]
    split
    · exact ih
    next hc =>
      simp only [List.map_cons, List.nodup_cons]
      refine ⟨fun hmem => hc ?_, ih⟩
      simpa using keys_dedupKeepLast_subset xs x.1 hmem

lemma getPoint_dedupKeepLast_append {α : Type} (p y : List (Nat × α)) (t : Nat)
    (ht : t ∈ y.map Prod.fst) :
    getPoint (dedupKeepLast (p ++ y)) t = getPoint (dedupKeepLast y) t := by
  induction p with
  | nil => rw [List.nil_append]
  | cons a p ih =>
    rw [List.cons_append, dedupKeepLast]
    split
    · exact ih
    next hc =>
      rw [getPoint_cons, if_neg ?_]
      · exact ih
      · intro he
        apply hc
        have : a.1 ∈ (p ++ y).map Prod.fst := by
          rw [he]
          simpa using Or.inr ht
        simpa using this

lemma getPoint_dedupKeepLast_nodup {α : Type} (y : List (Nat × α))
    (hy : (y.map Prod.fst).Nodup) (t : Nat) :
    getPoint (dedupKeepLast y) t = getPoint y t := by
  induction y with
  | nil => rfl
  | cons a ys ih =>
    simp only [List.map_cons, List.nodup_cons] at hy
    rw [dedupKeepLast]
    split
    next hc => exact absurd (by simpa using hc) hy.1
    · rw [getPoint_cons, getPoint_cons, ih hy.2]

/-- C7: the merge of the previously processed history `p` with the freshly
computed tail `y` deduplicates by timestamp preferring the later-computed
value: when the tail has no internal duplicate, every timestamp present in
both inputs maps to the tail's value in the merge, and the merged series
never carries two entries with the same timestamp. -/
theorem merge_prefers_new_tail {α : Type} (p y : List (Nat × α)) (t : Nat)
    (hy : (y.map Prod.fst).Nodup) (_hp : t ∈ p.map Prod.fst)
    (ht : t ∈ y.map Prod.fst) :
    getPoint (mergeProcessed p y) t = getPoint y t ∧
    ((mergeProcessed p y).map Prod.fst).Nodup := by
  constructor
  · rw [mergeProcessed, getPoint_dedupKeepLast_append p y t ht,
      getPoint_dedupKeepLast_nodup y hy t]
  · exact keys_dedupKeepLast_nodup (p ++ y)

/-- C7 (witness): on concrete history and tail sharing timestamp 2, the
merged value at 2 is the tail's value 7 and the merged keys are duplicate
free. -/
theorem merge_prefers_new_tail_witness :
    getPoint (mergeProcessed [(1, (5 : Q)), (2, 6)] [(2, 7), (3, 8)]) 2 =
      getPoint [(2, (7 : Q)), (3, 8)] 2 ∧
    ((mergeProcessed [(1, (5 : Q)), (2, 6)] [(2, 7), (3, 8)]).map
      Prod.fst).Nodup :=
  merge_prefers_new_tail [(1, (5 : Q)), (2, 6)] [(2, 7), (3, 8)] 2 (by decide)
    (by decide) (by decide)

/-- C8: for every horizon length `h ≥ 1`, the horizon table built by
`preprocessing` has exactly `h` rows at strictly increasing, contiguous
hourly timestamps whose first entry is the top of the hour following `now`;
and whenever `preprocessing` succeeds, the horizon it returns is exactly
this index at the configured horizon length. -/
theorem horizon_table_complete (now h : Nat) (hh : 1 ≤ h) :
    (horizonIndex now h).length = h ∧
    (horizonIndex now h).head? = some (hourFloor now + 3600) ∧
    (∀ i (hi : i + 1 < (horizonIndex now h).length),
      (horizonIndex now h).get ⟨i + 1, hi⟩ =
        (horizonIndex now h).get ⟨i, Nat.lt_of_succ_lt hi⟩ + 3600) ∧
    (∀ (params : Params) (st : Stores) (W : List (Nat × WRow)) (pr : PreResult),
      (preprocessing params st now W).2 = Except.ok pr →
      pr.horizon = horizonIndex now params.horizon_length) := by
  refine ⟨by simp [horizonIndex], ?_, ?_, ?_⟩
  · cases h with
    | zero => cases hh
    | succ k => simp [horizonIndex, List.range_succ_eq_map]
  · intro i hi
    simp only [horizonIndex, List.length_map, List.length_range] at hi
    simp only [horizonIndex, List.get_eq_getElem, List.getElem_map,
      List.getElem_range]
    ring
  · intro params st W pr hok
    rw [preprocessing_eq] at hok
    split at hok
    · exact absurd hok (by simp)
    · split at hok
      · exact absurd hok (by simp)
      · injection hok with h2
        rw [← h2]

/-- C8 (witness): with `now = 5000` and horizon 3, the table is the three
contiguous hours 7200, 10800, 14400 starting at the hour after 5000. -/
theorem horizon_table_complete_witness :
    (horizonIndex 5000 3).length = 3 ∧
    (horizonIndex 5000 3).head? = some (hourFloor 5000 + 3600) :=
  ⟨(horizon_table_complete 5000 3 (by decide)).1,
   (horizon_table_complete 5000 3 (by decide)).2.1⟩

lemma Q.le_def (a b : Q) :
    (a ≤ b) = (a.num * (b.den : Int) ≤ b.num * (a.den : Int)) := rfl

lemma Q.lt_def (a b : Q) :
    (a < b) = (a.num * (b.den : Int) < b.num * (a.den : Int)) := rfl

lemma Q.num_zero : (0 : Q).num = 0 := rfl

lemma Q.den_zero : (0 : Q).den = 1 := rfl

lemma clampNeg_nonneg (x : Q) : 0 ≤ clampNeg x := by
  rw [clampNeg]
  split
  next => decide
  next h =>
    rw [Q.le_def]
    rw [Q.lt_def] at h
    simp only [Q.num_zero, Q.den_zero] at h ⊢
    omega

/-- C9: every row the forecasting operation returns is non-negative in all
three quantile fields, and the clamp leaves non-negative predictions
unchanged while replacing negative ones by zero. -/
theorem forecast_values_nonnegative (pred1 pred2 pred3 : List Q) :
    (∀ fp ∈ forecasting pred1 pred2 pred3,
      0 ≤ fp.first_quartile ∧ 0 ≤ fp.median ∧ 0 ≤ fp.third_quartile) ∧
    (∀ x : Q, (x < 0 → clampNeg x = 0) ∧ (0 ≤ x → clampNeg x = x)) := by
  constructor
  · intro fp hfp
    rw [forecasting] at hfp
    obtain ⟨x, -, rfl⟩ := List.mem_map.mp hfp
    exact ⟨clampNeg_nonneg _, clampNeg_nonneg _, clampNeg_nonneg _⟩
  · intro x
    constructor
    · intro h
      rw [clampNeg, if_pos h]
    · intro h
      have hnot : ¬ x < 0 := by
        rw [Q.lt_def]
        rw [Q.le_def] at h
        simp only [Q.num_zero, Q.den_zero] at h ⊢
        omega
      rw [clampNeg, if_neg hnot]

/-- C9 (witness): the clamp sends the negative prediction -5 to 0 and keeps
the non-negative prediction 7. -/
theorem forecast_values_nonnegative_witness :
    clampNeg ⟨-5, 1⟩ = 0 ∧ clampNeg 7 = 7 :=
  ⟨((forecast_values_nonnegative [] [] []).2 ⟨-5, 1⟩).1 (by decide),
   ((forecast_values_nonnegative [] [] []).2 7).2 (by decide)⟩

lemma renderSecondsChars_length (t : PTimestamp) :
    (renderSecondsChars t).length = 19 := by
  simp [renderSecondsChars, pad4, pad2]

lemma strOfTimestamp_take19 (t : PTimestamp) :
    (strOfTimestamp t).take 19 = renderSecondsChars t := by
  have h := renderSecondsChars_length t
  rw [strOfTimestamp, List.append_assoc, ← h, List.take_left]

/-- C10: with `dt = False`, `get_first_timestamp` and `get_last_timestamp`
return the store timestamp rendered as a string truncated to its first 19
characters - exactly the second-precision prefix, with the fractional
seconds and the timezone suffix dropped - and the load checkpoint string of
the time-range query is truncated the same way. -/
theorem timestamp_strings_truncate_to_seconds
    (store : List (PTimestamp × Q)) (t : PTimestamp) :
    get_first_timestamp store false =
      Sum.inr (renderSecondsChars ((store.head?.map Prod.fst).getD default)) ∧
    get_last_timestamp store false =
      Sum.inr (renderSecondsChars ((store.getLast?.map Prod.fst).getD default)) ∧
    checkpointString t = renderSecondsChars t ∧
    (renderSecondsChars t).length = 19 := by
  refine ⟨?_, ?_, strOfTimestamp_take19 t, renderSecondsChars_length t⟩
  · rw [get_first_timestamp]
    simp only [if_neg Bool.false_ne_true, strOfTimestamp_take19]
  · rw [get_last_timestamp]
    simp only [if_neg Bool.false_ne_true, strOfTimestamp_take19]

/-- C4 (amended): the weather fetch window start is the EARLIER (`min`) of
the last stored pulse point and the last stored weather point when the
weather series already has data, and otherwise the earlier of the first
pulse point and the configured earliest-available weather timestamp; in
both cases the result is truncated to the beginning of its calendar day. -/
theorem weather_fetch_start_uses_earlier (pulses : List (Nat × Q))
    (weather : List (Nat × WRow)) (firstAvail : Nat) :
    weatherFetchStart pulses weather firstAvail =
      dayFloor (if weather.isEmpty then min (firstKey pulses) firstAvail
                else min (lastKey pulses) (lastKey weather)) := by
  have key : ∀ s : Nat,
      s - (s / 3600 % 24 * 3600 + s / 60 % 60 * 60 + s % 60) = dayFloor s := by
    intro s
    simp only [dayFloor]
    omega
  rw [weatherFetchStart]
  cases hw : weather.isEmpty with
  | true => simpa [hw, max_self] using key (min (firstKey pulses) firstAvail)
  | false => simpa [hw] using key (min (lastKey pulses) (lastKey weather))

/-- A stored weather row used by the concrete counterexample store. -/
def wrowEx : WRow := ⟨some 20, some 20, some 20, some 20⟩

/-- C4 (counterexample): with the last pulse at 190800 (day 2, 05:00) and
the last stored weather point at 97200 (day 1, 03:00), the code computes
`min` and starts the fetch window at 86400, while the claimed "later of"
rule would start it at 172800. -/
theorem weather_fetch_start_cex :
    weatherFetchStart [(0, 0), (190800, 5)] [(97200, wrowEx)] 0 = 86400 ∧
    dayFloor (max (lastKey [((0 : Nat), (0 : Q)), (190800, 5)])
        (lastKey [(97200, wrowEx)])) = 172800 ∧
    (86400 : Nat) ≠ 172800 := by
  refine ⟨by decide, by decide, by decide⟩

lemma download_all_failures_empty (startT endT horizon interval : Nat) :
    download_weather_data (fun _ => none) startT endT horizon interval = [] := by
  have h : ∀ (l : List Nat) (c : List WBlock × Nat), c.1 = [] →
      (l.foldl (fun (s : List WBlock × Nat) (_ : Nat) =>
        (s.1, if s.1.isEmpty then horizon else s.2 + interval)) c).1 = [] := by
    intro l
    induction l with
    | nil =>
      intro c hc
      simpa using hc
    | cons a l ih =>
      intro c hc
      exact ih _ (by simpa using hc)
  rw [download_weather_data]
  have hf : ((List.range (if endT < startT then 0
        else (endT - startT) / 21600 + 1)).foldl
      (fun (s : List WBlock × Nat) (i : Nat) =>
        match (fun _ => (none : Option WBlock)) (endT - 21600 * i) with
        | some b => (s.1 ++ [b.take s.2], interval)
        | none => (s.1, if s.1.isEmpty then horizon else s.2 + interval))
      ([], horizon)).1 = [] :=
    h _ ([], horizon) rfl
  rw [hf]
  rfl

/-- C3 (code bug): when the provider fails for every queried block, the
download does return an empty table, but the run does NOT complete: the
daily-aggregate step dereferences `.date` on the empty table's default
`RangeIndex`, raising `AttributeError`, which propagates through
`weather_preprocessing` and aborts the task before any forecast is
written. -/
theorem weather_empty_table_crashes_run :
    download_weather_data (fun _ => none) 0 43200 72 6 = [] ∧
    aggregateDailyTemps [] = Except.error PyExc.attributeError ∧
    (weather_preprocessing (fun _ => none) paramsA storesA 43200).2 =
      Except.error PyExc.attributeError ∧
    (forecasting_task (fun _ => none) paramsA ([], [], []) storesA 43200).2 =
      Except.error PyExc.attributeError ∧
    (forecasting_task (fun _ => none) paramsA ([], [], [])
        storesA 43200).1.forecast = storesA.forecast :=
  ⟨download_all_failures_empty 0 43200 72 6, rfl, by decide, by decide,
   by decide⟩
